import Mathlib

/-!
Verification of the GraphGallery graph-batch preprocessing and sequencing
pipeline (GCN, FastGCN, RobustGCN model wrappers).

The four source files under verification are
`graphgallery/nn/models/supervised/fastgcn.py`,
`graphgallery/nn/models/supervised/robustgcn.py`,
`graphgallery/nn/models/semisupervised/gcn.py` and
`graphgallery/utils/raise_error.py`.  The sequencer classes
(`FullBatchNodeSequence`, `FastGCNBatchSequence`), the adjacency normalizer
`normalize_adj` and the model base classes live in modules of the repository
outside those files; where a definition below embeds one of them it is
modelled from the specification and its doc comment says so explicitly.

Matrices are embedded as real-valued functions on `Fin`-indexed positions,
python lists as Lean lists, python dicts (for `**kwargs`) as association
lists in insertion order, and raised exceptions as `Except` errors.
-/

/-- Real matrix with `n` rows and `m` columns, the shallow embedding of a
scipy sparse or dense numpy matrix (values are what matters, not storage). -/
abbrev Mat (n m : ℕ) : Type := Fin n → Fin m → ℝ

/-- Modelled from the spec: the degree-scaling factor `d ^ rate` of §4.2,
with the required edge case that degree-zero nodes map to a `0` scaling
factor (`0 ^ negative` is `0`, never infinity or an error). -/
noncomputable def dpow (d r : ℝ) : ℝ :=
  if d = 0 then 0 else d ^ r

/-- Row-sum degree `d_i = sum_j A_ij` of an adjacency matrix (spec §4.2). -/
noncomputable def deg {n : ℕ} (A : Mat n n) (i : Fin n) : ℝ :=
  ∑ j, A i j

/-- Modelled from the spec: `normalize_adj` of
`graphgallery.utils.data_utils` (imported, not under the verified files)
per §4.2: form `D^rate A D^rate` where `D^rate` is diagonal with entries
`d_i^rate`; self-loop addition is not configured at the verified call
sites.  Entry `(i, j)` of the result is `d_i^rate * A_ij * d_j^rate`. -/
noncomputable def normalize_adj {n : ℕ} (A : Mat n n) (r : ℝ) : Mat n n :=
  fun i j => dpow (deg A i) r * A i j * dpow (deg A j) r

/-- Matrix product, the embedding of `adj.dot(x)`. -/
noncomputable def matMul {n m p : ℕ} (A : Mat n m) (B : Mat m p) : Mat n p :=
  fun i k => ∑ j, A i j * B j k

/-- Errors of the sequencer error taxonomy (spec §7) that the embedded
operations can raise. -/
inductive SeqError : Type where
  | IndexOutOfRangeError : SeqError
  | InvalidSampleSizeError : SeqError
deriving DecidableEq

/-- Modelled from the spec: `FullBatchNodeSequence` of
`graphgallery.sequence` (imported, not under the verified files), §4.5:
constructed from a fixed list of input tensors and a label vector.  The
inputs are kept abstract in the type parameter `ι` (each call site
instantiates it with its own tuple of tensors). -/
structure FullBatchNodeSequence (ι : Type) : Type where
  inputs : ι
  labels : List ℤ

/-- Modelled from the spec: `length() -> 1`, always exactly one batch per
epoch (§4.5). -/
def FullBatchNodeSequence.length {ι : Type} (_s : FullBatchNodeSequence ι) : ℕ :=
  1

/-- Modelled from the spec: `get_batch(i) -> (inputs, labels)` for `i == 0`
only, failing with `IndexOutOfRangeError` otherwise (§4.5). -/
def FullBatchNodeSequence.get_batch {ι : Type} (s : FullBatchNodeSequence ι)
    (i : ℕ) : Except SeqError (ι × List ℤ) :=
  if i = 0 then Except.ok (s.inputs, s.labels)
  else Except.error SeqError.IndexOutOfRangeError

/-- Modelled from the spec: `on_epoch_end()` is a no-op for the full-batch
sequencer (§4.5). -/
def FullBatchNodeSequence.on_epoch_end {ι : Type}
    (s : FullBatchNodeSequence ι) : FullBatchNodeSequence ι :=
  s

/-- Modelled from the spec: `FastGCNBatchSequence` of
`graphgallery.sequence` (imported, not under the verified files), §4.6:
constructed from a feature tensor, an adjacency matrix, a matching label
vector, an optional `batch_size` (absence meaning the whole set is one
batch) and an optional `rank`.  The feature and adjacency tensors are kept
abstract in the type parameters `X` and `A` (their shapes differ between
the train and test call sites). -/
structure FastGCNBatchSequence (X A : Type) : Type where
  x : X
  adj : A
  labels : List ℤ
  batch_size : Option ℕ
  rank : Option ℕ

/-- Modelled from the spec: `length()` is `ceil(N / batch_size)` if
`batch_size` is given and `1` otherwise (§4.6), with the ceiling realised
by the usual natural-number formula `(N + b - 1) / b`; `N` is the number
of rows, the length of the label vector. -/
def FastGCNBatchSequence.length {X A : Type} (s : FastGCNBatchSequence X A) : ℕ :=
  match s.batch_size with
  | none => 1
  | some b => (s.labels.length + b - 1) / b

/-- Modelled from the spec: the labels paired with batch `i`, the i-th
contiguous row-slice of size `batch_size` (the last batch may be shorter),
or the whole label vector when `batch_size` is absent (§4.6).  The
randomly importance-sampled feature/adjacency submatrices of a batch are
not modelled; the batch boundaries and label pairing are. -/
def FastGCNBatchSequence.batchLabels {X A : Type} (s : FastGCNBatchSequence X A)
    (i : ℕ) : List ℤ :=
  match s.batch_size with
  | none => s.labels
  | some b => (s.labels.drop (i * b)).take b

/-- Modelled from the spec: `get_batch(i)` selects the i-th contiguous
row-slice, failing with `IndexOutOfRangeError` beyond `length()` (§4.6,
§7); only the label component of the batch is modelled. -/
def FastGCNBatchSequence.get_batch {X A : Type} (s : FastGCNBatchSequence X A)
    (i : ℕ) : Except SeqError (List ℤ) :=
  if i < s.length then Except.ok (s.batchLabels i)
  else Except.error SeqError.IndexOutOfRangeError

/-- Modelled from the spec: `on_epoch_end()` with the reshuffling
implementation choice of §4.6 disabled (as §8 requires for the epoch
row-count property), hence the identity. -/
def FastGCNBatchSequence.on_epoch_end {X A : Type}
    (s : FastGCNBatchSequence X A) : FastGCNBatchSequence X A :=
  s

/-- State of a `GCN` model wrapper relevant to sequencing
(`gcn.py`): the materialised feature and structure inputs (opaque here)
and the full label vector of the graph. -/
structure GCNModel (n : ℕ) (Fe St : Type) : Type where
  feature_inputs : Fe
  structure_inputs : St
  labels : Fin n → ℤ

/-- Embedding of `GCN.train_sequence` (`gcn.py` lines 95-100): coerce the
index subset, restrict the label vector to it, and build a
`FullBatchNodeSequence` on `[feature_inputs, structure_inputs, index]`. -/
def gcn_train_sequence {n : ℕ} {Fe St : Type} (m : GCNModel n Fe St)
    (index : List (Fin n)) : FullBatchNodeSequence (Fe × St × List (Fin n)) :=
  { inputs := (m.feature_inputs, m.structure_inputs, index)
    labels := index.map m.labels }

/-- Modelled from the spec: `test_sequence(index_subset) -> Sequencer`
(§6) for the `GCN` wrapper; its body is not under the verified files (it
is inherited from the model base class), so it is modelled as producing
the same full-batch sequencer bound to the index subset that
`train_sequence` produces. -/
def gcn_test_sequence {n : ℕ} {Fe St : Type} (m : GCNModel n Fe St)
    (index : List (Fin n)) : FullBatchNodeSequence (Fe × St × List (Fin n)) :=
  gcn_train_sequence m index

/-- State of a `RobustGCN` model wrapper relevant to sequencing
(`robustgcn.py`): the materialised feature tensor, the pair of
materialised normalized adjacency tensors (opaque here) and the full
label vector. -/
structure RobustGCNModel (n : ℕ) (X A : Type) : Type where
  tf_x : X
  tf_adj : A × A
  labels : Fin n → ℤ

/-- Embedding of `RobustGCN.train_sequence` (`robustgcn.py` lines
110-115): restrict the labels to the index subset and build a
`FullBatchNodeSequence` on `[tf_x, *tf_adj, index]`. -/
def robustgcn_train_sequence {n : ℕ} {X A : Type} (m : RobustGCNModel n X A)
    (index : List (Fin n)) :
    FullBatchNodeSequence (X × A × A × List (Fin n)) :=
  { inputs := (m.tf_x, m.tf_adj.1, m.tf_adj.2, index)
    labels := index.map m.labels }

/-- Modelled from the spec: `test_sequence(index_subset) -> Sequencer`
(§6) for the `RobustGCN` wrapper; its body is not under the verified
files (inherited from the model base class), modelled as producing the
same full-batch sequencer bound to the index subset. -/
def robustgcn_test_sequence {n : ℕ} {X A : Type} (m : RobustGCNModel n X A)
    (index : List (Fin n)) :
    FullBatchNodeSequence (X × A × A × List (Fin n)) :=
  robustgcn_train_sequence m index

/-- Optional adjacency normalization guarded by the `None` check of
`FastGCN.preprocess` (`fastgcn.py` lines 69-70): normalize only when a
rate is present. -/
noncomputable def applyAdjNorm {n : ℕ} (adj : Mat n n) (rate : Option ℝ) : Mat n n :=
  match rate with
  | none => adj
  | some r => normalize_adj adj r

/-- Optional attribute normalization guarded by the `None` check of
`FastGCN.preprocess` (`fastgcn.py` lines 72-73): apply `norm_x_fn` only
when it is present. -/
def applyAttrNorm {n f : ℕ} (x : Mat n f) (nf : Option (Mat n f → Mat n f)) : Mat n f :=
  match nf with
  | none => x
  | some g => g x

/-- Embedding of `FastGCN.preprocess` (`fastgcn.py` lines 66-78):
optionally normalize the adjacency, optionally normalize the attributes,
then store as the persistent feature tensor `tf_x` the product
`adj.dot(x)` and as `adj_norm` the (optionally normalized) adjacency.
The base-class `preprocess` call (format coercion of the inputs, not
under the verified files) is the identity on the mathematical content.
Returns the pair `(tf_x, adj_norm)`. -/
noncomputable def fastgcn_preprocess {n f : ℕ} (adj : Mat n n) (x : Mat n f)
    (rate : Option ℝ) (nf : Option (Mat n f → Mat n f)) : Mat n f × Mat n n :=
  (matMul (applyAdjNorm adj rate) (applyAttrNorm x nf), applyAdjNorm adj rate)

/-- Embedding of `RobustGCN.preprocess` (`robustgcn.py` lines 59-69):
when the rate pair is present, replace the adjacency by the two
normalized copies `normalize_adj([adj, adj], rates)`; when it is `None`
the adjacency is left untouched (a single matrix).  The attributes are
optionally normalized.  Returns the attribute matrix paired with the
list of adjacency matrices handed to `to_tensor`. -/
noncomputable def robustgcn_preprocess {n f : ℕ} (adj : Mat n n) (x : Mat n f)
    (rates : Option (ℝ × ℝ)) (nf : Option (Mat n f → Mat n f)) :
    Mat n f × List (Mat n n) :=
  (applyAttrNorm x nf,
    match rates with
    | none => [adj]
    | some p => [normalize_adj adj p.1, normalize_adj adj p.2])

/-- State of a `FastGCN` model wrapper relevant to sequencing
(`fastgcn.py`): the raw adjacency `adj`, the preprocessed adjacency
`adj_norm`, the propagated feature tensor `tf_x`, the full label vector,
the optional adjacency-normalization rate and the batch parameters. -/
structure FastGCNModel (n f : ℕ) : Type where
  adj : Mat n n
  adj_norm : Mat n n
  tf_x : Mat n f
  labels : Fin n → ℤ
  norm_adj_rate : Option ℝ
  batch_size : ℕ
  rank : ℕ

/-- Embedding of `FastGCN.train_sequence` (`fastgcn.py` lines 115-128):
restrict the labels to the index subset, slice the RAW adjacency to the
subset rows and columns, re-normalize that submatrix when a rate is
present, gather the rows of `tf_x` at the subset, and build a
`FastGCNBatchSequence` with the model's `batch_size` and `rank`. -/
noncomputable def fastgcn_train_sequence {n f : ℕ} (m : FastGCNModel n f)
    (index : List (Fin n)) :
    FastGCNBatchSequence (Fin index.length → Fin f → ℝ)
      (Fin index.length → Fin index.length → ℝ) :=
  { x := fun i k => m.tf_x (index.get i) k
    adj := applyAdjNorm (fun i j => m.adj (index.get i) (index.get j)) m.norm_adj_rate
    labels := index.map m.labels
    batch_size := some m.batch_size
    rank := some m.rank }

/-- Embedding of `FastGCN.test_sequence` (`fastgcn.py` lines 130-138):
restrict the labels to the index subset, slice the rows of the
preprocessed adjacency `adj_norm` at the subset, keep the full feature
tensor, and build a `FastGCNBatchSequence` with `batch_size=None` and
`rank=None` (full batch). -/
noncomputable def fastgcn_test_sequence {n f : ℕ} (m : FastGCNModel n f)
    (index : List (Fin n)) :
    FastGCNBatchSequence (Mat n f) (Fin index.length → Fin n → ℝ) :=
  { x := m.tf_x
    adj := fun i j => m.adj_norm (index.get i) j
    labels := index.map m.labels
    batch_size := none
    rank := none }

/-- The message of the `TypeError` raised by `raise_if_kwargs`
(`raise_error.py` lines 6-8), naming the offending keyword. -/
def kwargsErrorMessage (k : String) : String :=
  "Got an unexpected keyword argument \x27" ++ k ++ "\x27"

/-- Embedding of `raise_if_kwargs` (`raise_error.py` lines 4-8): a python
dict is an insertion-ordered association list, truthiness of a dict is
non-emptiness, and `next(iter(kwargs.keys()))` is the first key; raising
`TypeError` is modelled as an `Except.error` carrying the message. -/
def raise_if_kwargs {V : Type} (kwargs : List (String × V)) : Except String Unit :=
  match kwargs with
  | [] => Except.ok ()
  | (k, _) :: _ => Except.error (kwargsErrorMessage k)

/-- Concrete one-node GCN model used to witness the full-batch contract. -/
def exGCN : GCNModel 1 ℕ ℕ :=
  { feature_inputs := 0, structure_inputs := 0, labels := fun _ => 0 }

/-- Concrete one-node RobustGCN model used to witness the full-batch
contract. -/
def exRobust : RobustGCNModel 1 ℕ ℕ :=
  { tf_x := 0, tf_adj := (0, 0), labels := fun _ => 0 }

/-- C3: every full-batch sequencer built by `GCN.train_sequence` or
`RobustGCN.train_sequence` has `length() = 1`, `get_batch(0)` returning
the inputs and labels, `get_batch(i)` failing with
`IndexOutOfRangeError` for every `i ≠ 0`, and `on_epoch_end()` a no-op. -/
theorem fullbatch_sequence_contract {n₁ n₂ : ℕ} {Fe St X A : Type}
    (m₁ : GCNModel n₁ Fe St) (idx₁ : List (Fin n₁))
    (m₂ : RobustGCNModel n₂ X A) (idx₂ : List (Fin n₂))
    (i : ℕ) (hi : i ≠ 0) :
    (gcn_train_sequence m₁ idx₁).length = 1 ∧
    (gcn_train_sequence m₁ idx₁).get_batch 0 =
      Except.ok ((gcn_train_sequence m₁ idx₁).inputs,
        (gcn_train_sequence m₁ idx₁).labels) ∧
    (gcn_train_sequence m₁ idx₁).get_batch i =
      Except.error SeqError.IndexOutOfRangeError ∧
    (gcn_train_sequence m₁ idx₁).on_epoch_end = gcn_train_sequence m₁ idx₁ ∧
    (robustgcn_train_sequence m₂ idx₂).length = 1 ∧
    (robustgcn_train_sequence m₂ idx₂).get_batch 0 =
      Except.ok ((robustgcn_train_sequence m₂ idx₂).inputs,
        (robustgcn_train_sequence m₂ idx₂).labels) ∧
    (robustgcn_train_sequence m₂ idx₂).get_batch i =
      Except.error SeqError.IndexOutOfRangeError ∧
    (robustgcn_train_sequence m₂ idx₂).on_epoch_end =
      robustgcn_train_sequence m₂ idx₂ := by
  refine ⟨rfl, rfl, ?_, rfl, rfl, rfl, ?_, rfl⟩ <;>
    simp [FullBatchNodeSequence.get_batch, hi]

/-- Witness for C3 at a concrete one-node model and batch index 1. -/
theorem fullbatch_sequence_contract_witness :
    (1 : ℕ) ≠ 0 ∧
    ((gcn_train_sequence exGCN [0]).length = 1 ∧
    (gcn_train_sequence exGCN [0]).get_batch 0 =
      Except.ok ((gcn_train_sequence exGCN [0]).inputs,
        (gcn_train_sequence exGCN [0]).labels) ∧
    (gcn_train_sequence exGCN [0]).get_batch 1 =
      Except.error SeqError.IndexOutOfRangeError ∧
    (gcn_train_sequence exGCN [0]).on_epoch_end = gcn_train_sequence exGCN [0] ∧
    (robustgcn_train_sequence exRobust [0]).length = 1 ∧
    (robustgcn_train_sequence exRobust [0]).get_batch 0 =
      Except.ok ((robustgcn_train_sequence exRobust [0]).inputs,
        (robustgcn_train_sequence exRobust [0]).labels) ∧
    (robustgcn_train_sequence exRobust [0]).get_batch 1 =
      Except.error SeqError.IndexOutOfRangeError ∧
    (robustgcn_train_sequence exRobust [0]).on_epoch_end =
      robustgcn_train_sequence exRobust [0]) :=
  ⟨by decide,
   fullbatch_sequence_contract exGCN [0] exRobust [0] 1 (by decide)⟩

/-- C5: when the normalization rate is `None`, preprocessing applies no
adjacency normalization: `FastGCN.preprocess` stores the adjacency
unchanged, and `RobustGCN.preprocess` leaves the single raw adjacency
untouched. -/
theorem preprocess_identity_when_rate_none {n f : ℕ} (adj : Mat n n)
    (x : Mat n f) (nf : Option (Mat n f → Mat n f)) :
    (fastgcn_preprocess adj x none nf).2 = adj ∧
    (robustgcn_preprocess adj x none nf).2 = [adj] :=
  ⟨rfl, rfl⟩

/-- C4: for every index subset, the label vector handed to the sequencer
by each model's `train_sequence` is the full label vector restricted to
the subset in subset order, so its leading dimension is the subset
size. -/
theorem train_sequence_labels_restrict {n₁ n₂ n₃ f : ℕ} {Fe St X A : Type}
    (m₁ : GCNModel n₁ Fe St) (idx₁ : List (Fin n₁))
    (m₂ : RobustGCNModel n₂ X A) (idx₂ : List (Fin n₂))
    (m₃ : FastGCNModel n₃ f) (idx₃ : List (Fin n₃)) :
    (gcn_train_sequence m₁ idx₁).labels = idx₁.map m₁.labels ∧
    (gcn_train_sequence m₁ idx₁).labels.length = idx₁.length ∧
    (robustgcn_train_sequence m₂ idx₂).labels = idx₂.map m₂.labels ∧
    (robustgcn_train_sequence m₂ idx₂).labels.length = idx₂.length ∧
    (fastgcn_train_sequence m₃ idx₃).labels = idx₃.map m₃.labels ∧
    (fastgcn_train_sequence m₃ idx₃).labels.length = idx₃.length := by
  refine ⟨rfl, ?_, rfl, ?_, rfl, ?_⟩ <;>
    simp [gcn_train_sequence, robustgcn_train_sequence, fastgcn_train_sequence]

/-- C1: every model in the gallery exposes `train_sequence` and
`test_sequence`; each returns a sequencer bound to the given index
subset (its labels are the subset restriction of the model's labels)
and satisfying the sequencer contract operations `get_batch`, `length`
and `on_epoch_end`. -/
theorem sequence_interface_contract {n₁ n₂ n₃ f : ℕ} {Fe St X A : Type}
    (m₁ : GCNModel n₁ Fe St) (idx₁ : List (Fin n₁))
    (m₂ : RobustGCNModel n₂ X A) (idx₂ : List (Fin n₂))
    (m₃ : FastGCNModel n₃ f) (idx₃ : List (Fin n₃)) :
    (gcn_train_sequence m₁ idx₁).labels = idx₁.map m₁.labels ∧
    (gcn_test_sequence m₁ idx₁).labels = idx₁.map m₁.labels ∧
    (robustgcn_train_sequence m₂ idx₂).labels = idx₂.map m₂.labels ∧
    (robustgcn_test_sequence m₂ idx₂).labels = idx₂.map m₂.labels ∧
    (fastgcn_train_sequence m₃ idx₃).labels = idx₃.map m₃.labels ∧
    (fastgcn_test_sequence m₃ idx₃).labels = idx₃.map m₃.labels ∧
    (gcn_train_sequence m₁ idx₁).length = 1 ∧
    (gcn_test_sequence m₁ idx₁).get_batch 0 =
      Except.ok ((gcn_test_sequence m₁ idx₁).inputs, idx₁.map m₁.labels) ∧
    (robustgcn_test_sequence m₂ idx₂).on_epoch_end =
      robustgcn_test_sequence m₂ idx₂ ∧
    (fastgcn_test_sequence m₃ idx₃).length = 1 ∧
    (fastgcn_test_sequence m₃ idx₃).get_batch 0 =
      Except.ok (idx₃.map m₃.labels) ∧
    (fastgcn_train_sequence m₃ idx₃).on_epoch_end =
      fastgcn_train_sequence m₃ idx₃ := by
  refine ⟨rfl, rfl, rfl, rfl, rfl, rfl, rfl, rfl, rfl, rfl, ?_, rfl⟩
  simp [FastGCNBatchSequence.get_batch, FastGCNBatchSequence.length,
    FastGCNBatchSequence.batchLabels, fastgcn_test_sequence]

/-- C10: `raise_if_kwargs` raises a `TypeError` whose message names the
first key if and only if the keyword dictionary is non-empty; on an
empty dictionary it returns normally. -/
theorem raise_if_kwargs_spec {V : Type} (kwargs : List (String × V)) :
    (raise_if_kwargs kwargs = Except.ok () ↔ kwargs = []) ∧
    (∀ k v rest, kwargs = (k, v) :: rest →
      raise_if_kwargs kwargs = Except.error (kwargsErrorMessage k)) := by
  constructor
  · cases kwargs with
    | nil => simp [raise_if_kwargs]
    | cons p rest =>
      obtain ⟨k, v⟩ := p
      simp [raise_if_kwargs]
  · intro k v rest h
    subst h
    rfl

/-- Witness for C10 at the empty dictionary and at a one-entry
dictionary. -/
theorem raise_if_kwargs_spec_witness :
    raise_if_kwargs ([] : List (String × ℕ)) = Except.ok () ∧
    raise_if_kwargs [(("foo"), (0 : ℕ))] =
      Except.error (kwargsErrorMessage ("foo")) :=
  ⟨(raise_if_kwargs_spec ([] : List (String × ℕ))).1.mpr rfl,
   (raise_if_kwargs_spec [(("foo"), (0 : ℕ))]).2 ("foo") 0 [] rfl⟩

/-- The natural-number batch-count formula `(N + b - 1) / b` is exactly
the rational ceiling of `N / b` for positive `b`. -/
theorem ceil_div_formula (N b : ℕ) (hb : 0 < b) :
    (((N + b - 1) / b : ℕ) : ℤ) = ⌈(N : ℚ) / (b : ℚ)⌉ := by
  have hbQ : (0 : ℚ) < (b : ℚ) := by exact_mod_cast hb
  set L : ℕ := (N + b - 1) / b with hL
  have hub : N ≤ b * L := by
    have h := le_smul_ceilDiv (a := b) (b := N) hb
    simpa [Nat.ceilDiv_eq_add_pred_div, smul_eq_mul, hL] using h
  symm
  rw [Int.ceil_eq_iff]
  constructor
  · rcases Nat.eq_zero_or_pos L with h0 | h1
    · rw [h0]
      push_cast
      have hnn : (0 : ℚ) ≤ (N : ℚ) / (b : ℚ) := by positivity
      linarith
    · have hlb : b * (L - 1) < N := by
        by_contra hcon
        push_neg at hcon
        have hle : N ⌈/⌉ b ≤ L - 1 :=
          (ceilDiv_le_iff_le_smul hb).mpr (by simpa [smul_eq_mul] using hcon)
        have : L ≤ L - 1 := by
          simpa [Nat.ceilDiv_eq_add_pred_div, hL] using hle
        omega
      rw [lt_div_iff₀ hbQ]
      have hc : ((b * (L - 1) : ℕ) : ℚ) < (N : ℚ) := by exact_mod_cast hlb
      have he : (((L : ℕ) : ℤ) - 1 : ℚ) * (b : ℚ) = ((b * (L - 1) : ℕ) : ℚ) := by
        push_cast [Nat.cast_sub h1]
        ring
      rw [he]
      exact hc
  · rw [div_le_iff₀ hbQ]
    calc (N : ℚ) ≤ ((b * L : ℕ) : ℚ) := by exact_mod_cast hub
      _ = (((L : ℕ) : ℤ) : ℚ) * (b : ℚ) := by push_cast; ring

/-- C2: the importance-sampling sequencer over `N` nodes has
`length() = ceil(N / batch_size)` when a batch size is given (as in
`FastGCN.train_sequence`, where `N` is the index subset size) and
`length() = 1` when `batch_size` is absent (as in
`FastGCN.test_sequence`). -/
theorem fastgcn_batch_length_spec {n f : ℕ} (m : FastGCNModel n f)
    (index : List (Fin n)) (hb : 0 < m.batch_size) :
    (((fastgcn_train_sequence m index).length : ℕ) : ℤ) =
      ⌈(index.length : ℚ) / (m.batch_size : ℚ)⌉ ∧
    (fastgcn_test_sequence m index).length = 1 := by
  constructor
  · have hlen : (fastgcn_train_sequence m index).length =
        (index.length + m.batch_size - 1) / m.batch_size := by
      simp [fastgcn_train_sequence, FastGCNBatchSequence.length]
    rw [hlen]
    exact ceil_div_formula index.length m.batch_size hb
  · rfl

/-- Concrete five-node FastGCN model (batch size 2) used to witness the
sequencer length formula. -/
noncomputable def exFast : FastGCNModel 5 1 :=
  { adj := fun _ _ => 0
    adj_norm := fun _ _ => 0
    tf_x := fun _ _ => 0
    labels := fun _ => 0
    norm_adj_rate := none
    batch_size := 2
    rank := 1 }

/-- The full five-element index subset of the witness model. -/
def exIdx5 : List (Fin 5) := [0, 1, 2, 3, 4]

/-- Witness for C2: five nodes with batch size 2 give
`ceil(5 / 2) = 3` batches in training mode and one batch in test mode. -/
theorem fastgcn_batch_length_spec_witness :
    0 < exFast.batch_size ∧
    ((((fastgcn_train_sequence exFast exIdx5).length : ℕ) : ℤ) =
      ⌈(exIdx5.length : ℚ) / (exFast.batch_size : ℚ)⌉ ∧
    (fastgcn_test_sequence exFast exIdx5).length = 1) :=
  ⟨by norm_num [exFast],
   fastgcn_batch_length_spec exFast exIdx5 (by norm_num [exFast])⟩

/-- Two-node matrix with a single self-loop at node 1, so node 0 is
isolated (degree zero); used to witness the degree-zero safety claim. -/
def exA : Mat 2 2 := fun i j => if i = 1 ∧ j = 1 then 1 else 0

/-- C6: for every adjacency matrix and negative normalization rate, a
degree-zero node gets a `0` scaling factor and its entire row and column
in the normalized adjacency are zero; in this real-valued model every
entry is a well-defined real number, so no NaN, infinity or
division-by-zero arises. -/
theorem normalize_adj_zero_degree {n : ℕ} (A : Mat n n) (r : ℝ)
    (_hr : r < 0) (i : Fin n) (hi : deg A i = 0) :
    dpow (deg A i) r = 0 ∧
    (∀ j, normalize_adj A r i j = 0) ∧
    (∀ j, normalize_adj A r j i = 0) := by
  have h0 : dpow (deg A i) r = 0 := by
    rw [hi]
    simp [dpow]
  refine ⟨h0, fun j => ?_, fun j => ?_⟩ <;> simp [normalize_adj, h0]

/-- Witness for C6 at the two-node matrix with node 0 isolated and rate
`-1`. -/
theorem normalize_adj_zero_degree_witness :
    ((-1 : ℝ) < 0 ∧ deg exA 0 = 0) ∧
    (dpow (deg exA 0) (-1) = 0 ∧
      normalize_adj exA (-1) 0 1 = 0 ∧
      normalize_adj exA (-1) 1 0 = 0) := by
  have hdeg : deg exA 0 = 0 := by
    norm_num [deg, exA, Fin.sum_univ_two]
  have h := normalize_adj_zero_degree exA (-1) (by norm_num) 0 hdeg
  exact ⟨⟨by norm_num, hdeg⟩, h.1, h.2.1 1, h.2.2 1⟩

/-- Adjacency matrix of the 6-node ring graph: entry `(i, j)` is `1`
exactly when `i` and `j` are cyclically adjacent. -/
def ringA : Mat 6 6 := fun i j =>
  if j.val = (i.val + 1) % 6 ∨ i.val = (j.val + 1) % 6 then 1 else 0

/-- Every node of the 6-node ring has degree 2. -/
theorem ringA_deg (i : Fin 6) : deg ringA i = 2 := by
  fin_cases i <;>
    · simp only [deg, ringA, Fin.sum_univ_six]
      norm_num [show ((3 : Fin 6) : ℕ) = 3 from rfl,
        show ((4 : Fin 6) : ℕ) = 4 from rfl,
        show ((5 : Fin 6) : ℕ) = 5 from rfl]

/-- C7: on the 6-node ring graph, `normalize_adj` at the default FastGCN
rate `-0.5` maps every nonzero entry to `1 / sqrt(2 * 2) = 0.5`, since
every node has degree 2. -/
theorem ring_graph_normalize_half (i j : Fin 6) (h : ringA i j ≠ 0) :
    normalize_adj ringA (-(1 / 2) : ℝ) i j = 1 / 2 := by
  have hA : ringA i j = 1 := by
    by_cases hc : (j.val = (i.val + 1) % 6 ∨ i.val = (j.val + 1) % 6)
    · simp [ringA, hc]
    · exact absurd (by simp [ringA, hc]) h
  have h2 : ((2 : ℝ)) ≠ 0 := by norm_num
  have hstep : normalize_adj ringA (-(1 / 2) : ℝ) i j =
      (2 : ℝ) ^ (-(1 / 2) : ℝ) * (2 : ℝ) ^ (-(1 / 2) : ℝ) := by
    simp [normalize_adj, ringA_deg, hA, dpow, h2]
  rw [hstep, ← Real.rpow_add (by norm_num : (0 : ℝ) < 2)]
  have hexp : (-(1 / 2) : ℝ) + -(1 / 2) = -1 := by norm_num
  rw [hexp, Real.rpow_neg_one]
  norm_num

/-- Witness for C7 at the ring edge between nodes 0 and 1. -/
theorem ring_graph_normalize_half_witness :
    ringA 0 1 ≠ 0 ∧ normalize_adj ringA (-(1 / 2) : ℝ) 0 1 = 1 / 2 := by
  have h01 : ringA 0 1 ≠ 0 := by
    simp +decide [ringA]
  exact ⟨h01, ring_graph_normalize_half 0 1 h01⟩

/-- One-by-one all-zero adjacency used to separate the stored feature
tensor from the plain attribute matrix. -/
def exZeroAdj : Mat 1 1 := fun _ _ => 0

/-- One-by-one all-one attribute matrix used to separate the stored
feature tensor from the plain attribute matrix. -/
def exOneX : Mat 1 1 := fun _ _ => 1

/-- C9: `FastGCN.preprocess` stores as the persistent feature tensor not
the (optionally normalized) attribute matrix itself but the product of
the (optionally normalized) adjacency with it — entry `(i, k)` is the
propagated sum over all nodes `j` — and that tensor differs from the
attribute matrix in general (concretely on a 1-node graph with no
edges). -/
theorem fastgcn_preprocess_stores_propagated {n f : ℕ} (adj : Mat n n)
    (x : Mat n f) (rate : Option ℝ) (nf : Option (Mat n f → Mat n f))
    (i : Fin n) (k : Fin f) :
    (fastgcn_preprocess adj x rate nf).1 i k =
      ∑ j, applyAdjNorm adj rate i j * applyAttrNorm x nf j k ∧
    (fastgcn_preprocess exZeroAdj exOneX none none).1 ≠ exOneX := by
  refine ⟨rfl, fun hEq => ?_⟩
  have h00 := congrFun (congrFun hEq 0) 0
  simp [fastgcn_preprocess, matMul, applyAdjNorm, applyAttrNorm,
    exZeroAdj, exOneX] at h00
